import Mathlib

/-!
Shallow embedding of `ADSL/src/DirectiveProcessor.cpp` (alexaClientSDK::adsl).

The processor's per-instance state consists of the current dialog request id,
the directive currently being pre-handled (a slot holding at most one
directive), the handling and canceling queues (FIFO, modelled as lists with
the head at the front), and two booleans.  Each member function of
`DirectiveProcessor` that mutates state under `m_mutex` is embedded as a pure
function on this state.  Where the C++ releases `m_mutex` across a router
call and reacquires it, the function is split into an entry part and a resume
part, the resume part taking the (arbitrary) state found at reacquisition.
Condition-variable notification (`m_wakeProcessingLoop.notify_one()`) is
modelled, where a claim needs it, as an extra boolean output.
-/

namespace DirectiveProcessorModel

/-- A directive, reduced to the two fields the processor reads
(`getMessageId` and `getDialogRequestId`).  Structural equality stands for
the `shared_ptr` identity the C++ compares with `==`. -/
structure AVSDirective where
  messageId : String
  dialogRequestId : String
  deriving DecidableEq, Repr

/-- `avsCommon::BlockingPolicy`.  The dispatch code only distinguishes
`BLOCKING` from the rest. -/
inductive BlockingPolicy where
  | NONE
  | NON_BLOCKING
  | BLOCKING
  deriving DecidableEq, Repr

/-- The fields of one `DirectiveProcessor` guarded by `m_mutex`. -/
structure ProcState where
  dialogRequestId : String
  directiveBeingPreHandled : Option AVSDirective
  handlingQueue : List AVSDirective
  cancelingQueue : List AVSDirective
  isHandlingDirective : Bool
  isShuttingDown : Bool
  deriving DecidableEq, Repr

/-- `DirectiveProcessor::DirectiveHandlerResult`: the sink handed to the
router at pre-handle; it stores the processor handle and the directive's
message id. -/
structure DirectiveHandlerResult where
  processorHandle : Nat
  messageId : String
  deriving DecidableEq, Repr

/-- `DirectiveProcessor::queueAllDirectivesForCancellationLocked`.
Clears the dialog id; migrates the pre-handling slot to the back of the
handling queue; if the handling queue is then non-empty, appends it to the
canceling queue, clears it and notifies the worker; finally clears
`m_isHandlingDirective`.  The boolean output records whether
`m_wakeProcessingLoop.notify_one()` was called. -/
def queueAllDirectivesForCancellationLocked (s : ProcState) : ProcState × Bool :=
  let s1 : ProcState := { s with dialogRequestId := "" }
  let s2 : ProcState :=
    match s1.directiveBeingPreHandled with
    | some d => { s1 with handlingQueue := s1.handlingQueue ++ [d],
                          directiveBeingPreHandled := none }
    | none => s1
  if s2.handlingQueue.isEmpty then
    ({ s2 with isHandlingDirective := false }, false)
  else
    ({ s2 with cancelingQueue := s2.cancelingQueue ++ s2.handlingQueue,
               handlingQueue := [],
               isHandlingDirective := false }, true)

/-- `DirectiveProcessor::setDialogRequestId`. -/
def setDialogRequestId (s : ProcState) (dialogRequestId : String) : ProcState :=
  if dialogRequestId = s.dialogRequestId then
    s
  else
    let s1 := (queueAllDirectivesForCancellationLocked s).1
    { s1 with dialogRequestId := dialogRequestId }

/-- `DirectiveProcessor::findDirectiveInQueueLocked`, returning the index of
the first element of the queue whose message id matches. -/
def findDirectiveInQueueLocked (messageId : String) (queue : List AVSDirective) :
    Option Nat :=
  queue.findIdx? (fun element => element.messageId == messageId)

/-- `DirectiveProcessor::removeFromHandlingQueueLocked`: if a directive with
the given message id is in the handling queue, remove the first match,
clearing `m_isHandlingDirective` when the match was at the head while the
flag was set; returns whether a removal happened. -/
def removeFromHandlingQueueLocked (s : ProcState) (messageId : String) :
    ProcState × Bool :=
  match findDirectiveInQueueLocked messageId s.handlingQueue with
  | none => (s, false)
  | some i =>
    let s1 : ProcState :=
      if s.isHandlingDirective ∧ i = 0 then
        { s with isHandlingDirective := false }
      else s
    ({ s1 with handlingQueue := s1.handlingQueue.eraseIdx i }, true)

/-- `DirectiveProcessor::removeFromCancelingQueueLocked`. -/
def removeFromCancelingQueueLocked (s : ProcState) (messageId : String) :
    ProcState × Bool :=
  match findDirectiveInQueueLocked messageId s.cancelingQueue with
  | none => (s, false)
  | some i =>
    ({ s with cancelingQueue := s.cancelingQueue.eraseIdx i }, true)

/-- `DirectiveProcessor::onHandlingCompleted`. -/
def onHandlingCompleted (s : ProcState) (messageId : String) : ProcState :=
  if (s.directiveBeingPreHandled.map fun d => d.messageId) = some messageId then
    { s with directiveBeingPreHandled := none }
  else
    let (s1, removed) := removeFromHandlingQueueLocked s messageId
    if removed then s1
    else (removeFromCancelingQueueLocked s1 messageId).1

/-- `DirectiveProcessor::onHandlingFailed`.  The description argument is only
logged by the C++ and does not affect the state. -/
def onHandlingFailed (s : ProcState) (messageId : String)
    (_description : String) : ProcState :=
  if (s.directiveBeingPreHandled.map fun d => d.messageId) = some messageId then
    (queueAllDirectivesForCancellationLocked
      { s with directiveBeingPreHandled := none }).1
  else
    let (s1, removed) := removeFromHandlingQueueLocked s messageId
    if removed then (queueAllDirectivesForCancellationLocked s1).1
    else (removeFromCancelingQueueLocked s1 messageId).1

/-- The part of `DirectiveProcessor::onDirective` executed under `m_mutex`
before the router call: the three early-return guards, and otherwise storing
the directive into `m_directiveBeingPreHandled`.  The result is either
`Sum.inl r` — an early return with value `r` and the state unchanged — or
`Sum.inr s'` with the slot set, after which the lock is released and
`preHandleDirective` is called. -/
def onDirectiveEnter (s : ProcState) (directive : Option AVSDirective) :
    Sum Bool ProcState :=
  match directive with
  | none => Sum.inl false
  | some d =>
    if s.isShuttingDown then Sum.inl false
    else if d.dialogRequestId ≠ s.dialogRequestId then Sum.inl true
    else Sum.inr { s with directiveBeingPreHandled := some d }

/-- The part of `DirectiveProcessor::onDirective` executed after
`preHandleDirective` returns, on the state found when `m_mutex` is
reacquired: if the slot is (still) occupied it is cleared, and when the
router accepted, the directive is pushed onto the handling queue (the worker
is then notified).  The call returns the router's boolean unchanged. -/
def onDirectiveResume (s : ProcState) (directive : AVSDirective)
    (handled : Bool) : ProcState × Bool :=
  if s.directiveBeingPreHandled.isSome then
    let s1 : ProcState := { s with directiveBeingPreHandled := none }
    if handled then
      ({ s1 with handlingQueue := s1.handlingQueue ++ [directive] }, handled)
    else (s1, handled)
  else (s, handled)

/-- `DirectiveProcessor::onDirective` run without interference from other
threads while `m_mutex` is released across the router call.  The router is
an oracle from directive and sink to the pre-handle boolean; the third
component of the result is the trace of `preHandleDirective` calls made,
each recorded with the sink constructed for it (built from `m_handle` and
the directive, as `DirectiveHandlerResult`'s constructor stores them). -/
def onDirective (router : AVSDirective → DirectiveHandlerResult → Bool)
    (handle : Nat) (s : ProcState) (directive : Option AVSDirective) :
    ProcState × Bool × List (AVSDirective × DirectiveHandlerResult) :=
  match directive with
  | none => (s, false, [])
  | some d =>
    if s.isShuttingDown then (s, false, [])
    else if d.dialogRequestId ≠ s.dialogRequestId then (s, true, [])
    else
      let s1 : ProcState := { s with directiveBeingPreHandled := some d }
      let sink : DirectiveHandlerResult := ⟨handle, d.messageId⟩
      let handled := router d sink
      let (s2, r) := onDirectiveResume s1 d handled
      (s2, r, [(d, sink)])

/-- The state-mutation part of `DirectiveProcessor::shutdown` under
`m_mutex` (the deregistration from the handle map and the thread join are
registry- and thread-level effects). -/
def shutdown (s : ProcState) : ProcState :=
  let s1 := (queueAllDirectivesForCancellationLocked s).1
  { s1 with isShuttingDown := true }

/-- The part of `DirectiveProcessor::handleDirectiveLocked` before the
router call: `none` means the function returned (`false` when the handling
queue is empty, `true` when a blocking handle is already in progress);
otherwise it takes the head, sets `m_isHandlingDirective`, and the lock is
released for the `handleDirective` router call. -/
def handleDirectiveEnter (s : ProcState) :
    Option (Sum Bool (ProcState × AVSDirective)) :=
  match s.handlingQueue with
  | [] => some (Sum.inl false)
  | d :: _ =>
    if s.isHandlingDirective then some (Sum.inl true)
    else some (Sum.inr ({ s with isHandlingDirective := true }, d))

/-- The part of `DirectiveProcessor::handleDirectiveLocked` after the router
call returns, on the state found at reacquisition of `m_mutex`: when the
call failed or the policy is not `BLOCKING`, clear `m_isHandlingDirective`
and pop the head of the handling queue when it is still this directive;
when the call failed, additionally queue everything for cancellation. -/
def handleDirectiveResume (s : ProcState) (directive : AVSDirective)
    (handled : Bool) (policy : BlockingPolicy) : ProcState :=
  let s1 : ProcState :=
    if ¬handled ∨ BlockingPolicy.BLOCKING ≠ policy then
      let s1 : ProcState := { s with isHandlingDirective := false }
      if ¬s1.handlingQueue.isEmpty ∧ s1.handlingQueue.head? = some directive then
        { s1 with handlingQueue := s1.handlingQueue.tail }
      else s1
    else s
  if ¬handled then (queueAllDirectivesForCancellationLocked s1).1 else s1

/-- The part of `DirectiveProcessor::processCancelingQueueLocked` under
`m_mutex`: when the canceling queue is non-empty, its whole content is moved
into a local buffer (returned here as the list of directives the router's
`cancelDirective` is then called on, in order) and the function returns
true. -/
def processCancelingQueueLocked (s : ProcState) :
    ProcState × Bool × List AVSDirective :=
  if s.cancelingQueue.isEmpty then (s, false, [])
  else ({ s with cancelingQueue := [] }, true, s.cancelingQueue)

/-- The process-wide handle map `DirectiveProcessor::m_handleMap`, modelled
as an association list from handles to processor states. -/
def HandleMap : Type := List (Nat × ProcState)

/-- Lookup of `m_handleMap.find(handle)`. -/
def handleMapFind (m : HandleMap) (handle : Nat) : Option ProcState :=
  List.lookup handle m

/-- Writing back the state of the processor registered under `handle`. -/
def handleMapUpdate (m : HandleMap) (handle : Nat) (s : ProcState) :
    HandleMap :=
  List.map (fun p => if p.1 = handle then (handle, s) else p) m

/-- `DirectiveProcessor::DirectiveHandlerResult::setCompleted`: under the
handle-map mutex, look up the stored processor handle; when absent, the call
logs and returns with nothing changed; otherwise `onHandlingCompleted` runs
on that processor. -/
def setCompleted (m : HandleMap) (r : DirectiveHandlerResult) : HandleMap :=
  match handleMapFind m r.processorHandle with
  | none => m
  | some s => handleMapUpdate m r.processorHandle (onHandlingCompleted s r.messageId)

/-- `DirectiveProcessor::DirectiveHandlerResult::setFailed`, analogously. -/
def setFailed (m : HandleMap) (r : DirectiveHandlerResult)
    (description : String) : HandleMap :=
  match handleMapFind m r.processorHandle with
  | none => m
  | some s => handleMapUpdate m r.processorHandle (onHandlingFailed s r.messageId description)

/-- The state mutations that can run under `m_mutex` while one
`onDirective` call has released it across `preHandleDirective`.  A second
`onDirective` cannot interleave because the whole call holds
`m_onDirectiveMutex`; every other acquisition of `m_mutex` in the source is
listed here. -/
inductive EnvOp where
  | opSetDialog (dialogRequestId : String)
  | opShutdown
  | opCompleted (messageId : String)
  | opFailed (messageId : String) (description : String)
  | opCancelingTake
  | opDispatchEnter
  | opDispatchResume (directive : AVSDirective) (handled : Bool)
      (policy : BlockingPolicy)
  deriving Repr

/-- Effect of one environment operation on the processor state. -/
def applyEnvOp (s : ProcState) (op : EnvOp) : ProcState :=
  match op with
  | EnvOp.opSetDialog id => setDialogRequestId s id
  | EnvOp.opShutdown => shutdown s
  | EnvOp.opCompleted messageId => onHandlingCompleted s messageId
  | EnvOp.opFailed messageId description => onHandlingFailed s messageId description
  | EnvOp.opCancelingTake => (processCancelingQueueLocked s).1
  | EnvOp.opDispatchEnter =>
    match handleDirectiveEnter s with
    | some (Sum.inr (s1, _)) => s1
    | _ => s
  | EnvOp.opDispatchResume d handled policy => handleDirectiveResume s d handled policy

/-! ## Helper lemmas -/

/-- Closed form of the state produced by cancel-all. -/
theorem queueAll_fst (s : ProcState) :
    (queueAllDirectivesForCancellationLocked s).1 =
      ⟨"", none, [],
       s.cancelingQueue ++ s.handlingQueue ++ s.directiveBeingPreHandled.toList,
       false, s.isShuttingDown⟩ := by
  rcases s with ⟨dlg, slot, hq, cq, ih, sd⟩
  rcases slot with _ | d
  · rcases hq with _ | ⟨a, t⟩ <;>
      simp [queueAllDirectivesForCancellationLocked]
  · rcases hq with _ | ⟨a, t⟩ <;>
      simp [queueAllDirectivesForCancellationLocked]

/-- Closed form of the notification flag produced by cancel-all. -/
theorem queueAll_snd (s : ProcState) :
    (queueAllDirectivesForCancellationLocked s).2 =
      (s.directiveBeingPreHandled.isSome || !s.handlingQueue.isEmpty) := by
  rcases s with ⟨dlg, slot, hq, cq, ih, sd⟩
  rcases slot with _ | d
  · rcases hq with _ | ⟨a, t⟩ <;>
      simp [queueAllDirectivesForCancellationLocked]
  · rcases hq with _ | ⟨a, t⟩ <;>
      simp [queueAllDirectivesForCancellationLocked]

/-- Removing from the handling queue does not touch the pre-handling slot. -/
theorem removeFromHandlingQueue_slot (s : ProcState) (messageId : String) :
    (removeFromHandlingQueueLocked s messageId).1.directiveBeingPreHandled =
      s.directiveBeingPreHandled := by
  unfold removeFromHandlingQueueLocked
  rcases h : findDirectiveInQueueLocked messageId s.handlingQueue with _ | i
  · rfl
  · by_cases hc : s.isHandlingDirective ∧ i = 0 <;> simp [hc]

/-- Removing from the canceling queue does not touch the pre-handling slot. -/
theorem removeFromCancelingQueue_slot (s : ProcState) (messageId : String) :
    (removeFromCancelingQueueLocked s messageId).1.directiveBeingPreHandled =
      s.directiveBeingPreHandled := by
  unfold removeFromCancelingQueueLocked
  rcases h : findDirectiveInQueueLocked messageId s.cancelingQueue with _ | i
  · rfl
  · rfl

/-- Closed form of `removeFromHandlingQueueLocked` when no match exists. -/
theorem removeFromHandlingQueue_none (s : ProcState) (messageId : String)
    (h : findDirectiveInQueueLocked messageId s.handlingQueue = none) :
    removeFromHandlingQueueLocked s messageId = (s, false) := by
  unfold removeFromHandlingQueueLocked
  rw [h]

/-- Closed form of `removeFromHandlingQueueLocked` when the first match is
at index `i`. -/
theorem removeFromHandlingQueue_some (s : ProcState) (messageId : String)
    (i : Nat) (h : findDirectiveInQueueLocked messageId s.handlingQueue = some i) :
    removeFromHandlingQueueLocked s messageId =
      ({ s with handlingQueue := s.handlingQueue.eraseIdx i,
                isHandlingDirective := s.isHandlingDirective && decide (i ≠ 0) },
       true) := by
  rcases s with ⟨dlg, slot, hq, cq, ih, sd⟩
  simp only [removeFromHandlingQueueLocked, h]
  rcases ih with _ | _ <;> rcases i with _ | i <;> simp

/-- Closed form of `removeFromCancelingQueueLocked` when no match exists. -/
theorem removeFromCancelingQueue_none (s : ProcState) (messageId : String)
    (h : findDirectiveInQueueLocked messageId s.cancelingQueue = none) :
    removeFromCancelingQueueLocked s messageId = (s, false) := by
  unfold removeFromCancelingQueueLocked
  rw [h]

/-- Closed form of `removeFromCancelingQueueLocked` when the first match is
at index `j`. -/
theorem removeFromCancelingQueue_some (s : ProcState) (messageId : String)
    (j : Nat) (h : findDirectiveInQueueLocked messageId s.cancelingQueue = some j) :
    removeFromCancelingQueueLocked s messageId =
      ({ s with cancelingQueue := s.cancelingQueue.eraseIdx j }, true) := by
  unfold removeFromCancelingQueueLocked
  rw [h]

/-! ## Claim theorems -/

/-- C2.  Cancel-all clears the dialog id, empties the pre-handling slot and
the handling queue, clears `is_handling_current`, and the new canceling
queue is the old canceling queue followed by the old handling queue followed
by the slot directive (if any), so the original FIFO ingest order is
preserved. -/
theorem cancelAll_spec (s : ProcState) :
    ((queueAllDirectivesForCancellationLocked s).1.dialogRequestId = "") ∧
    ((queueAllDirectivesForCancellationLocked s).1.cancelingQueue =
      s.cancelingQueue ++ s.handlingQueue ++ s.directiveBeingPreHandled.toList) ∧
    ((queueAllDirectivesForCancellationLocked s).1.handlingQueue = []) ∧
    ((queueAllDirectivesForCancellationLocked s).1.directiveBeingPreHandled = none) ∧
    ((queueAllDirectivesForCancellationLocked s).1.isHandlingDirective = false) ∧
    ((queueAllDirectivesForCancellationLocked s).1.isShuttingDown = s.isShuttingDown) := by
  rw [queueAll_fst]
  exact ⟨rfl, rfl, rfl, rfl, rfl, rfl⟩

/-- C9 counterexample.  On a state with an empty pre-handling slot and an
empty handling queue, cancel-all does not notify the worker's condition
variable. -/
theorem cancelAll_no_notify_cex :
    (queueAllDirectivesForCancellationLocked
      ⟨"dialog", none, [], [], false, false⟩).2 = false := by
  rfl

/-- C9 (amended).  Cancel-all notifies the worker's condition variable iff
the pre-handling slot is occupied or the handling queue is non-empty; in
particular an invocation on a state where both are empty does not notify. -/
theorem cancelAll_notify_iff (s : ProcState) :
    (queueAllDirectivesForCancellationLocked s).2 =
      (s.directiveBeingPreHandled.isSome || !s.handlingQueue.isEmpty) := by
  exact queueAll_snd s

/-- C8.  Setting the dialog request id to the current value leaves the
state unchanged; setting it to a different value first performs cancel-all
(migrating slot and handling queue to the canceling queue, clearing the
slot, the handling queue and `is_handling_current`) and then installs the
new dialog id. -/
theorem setDialogRequestId_spec (s : ProcState) (newId : String) :
    (newId = s.dialogRequestId → setDialogRequestId s newId = s) ∧
    (newId ≠ s.dialogRequestId →
      setDialogRequestId s newId =
        ⟨newId, none, [],
         s.cancelingQueue ++ s.handlingQueue ++ s.directiveBeingPreHandled.toList,
         false, s.isShuttingDown⟩) := by
  constructor
  · intro h
    simp [setDialogRequestId, h]
  · intro h
    simp only [setDialogRequestId, if_neg h, queueAll_fst]

/-- C8 witness: both branches exercised at concrete states. -/
theorem setDialogRequestId_spec_witness :
    setDialogRequestId ⟨"a", none, [], [], false, false⟩ "a" =
      ⟨"a", none, [], [], false, false⟩ ∧
    setDialogRequestId ⟨"a", none, [⟨"m1", "a"⟩], [], true, false⟩ "b" =
      ⟨"b", none, [], [⟨"m1", "a"⟩], false, false⟩ := by
  constructor
  · exact (setDialogRequestId_spec ⟨"a", none, [], [], false, false⟩ "a").1 rfl
  · have h := (setDialogRequestId_spec ⟨"a", none, [⟨"m1", "a"⟩], [], true, false⟩ "b").2
      (by decide)
    simpa using h

/-- C7.  Ingest guards: a null directive returns `false` with no state
change and no router call; a non-null directive during shutdown returns
`false` with no state change and no router call; a non-null directive whose
dialog request id differs from the current one returns `true` with no state
change and no router call. -/
theorem onDirective_guards (router : AVSDirective → DirectiveHandlerResult → Bool)
    (handle : Nat) (s : ProcState) :
    (onDirective router handle s none = (s, false, [])) ∧
    (∀ d : AVSDirective, s.isShuttingDown = true →
      onDirective router handle s (some d) = (s, false, [])) ∧
    (∀ d : AVSDirective, s.isShuttingDown = false →
      d.dialogRequestId ≠ s.dialogRequestId →
      onDirective router handle s (some d) = (s, true, [])) := by
  refine ⟨rfl, ?_, ?_⟩
  · intro d h
    simp [onDirective, h]
  · intro d hs h
    simp [onDirective, hs, h]

/-- C7 witness: the three guards at concrete inputs. -/
theorem onDirective_guards_witness :
    (onDirective (fun _ _ => true) 1 ⟨"a", none, [], [], false, false⟩ none =
      (⟨"a", none, [], [], false, false⟩, false, [])) ∧
    (onDirective (fun _ _ => true) 1 ⟨"a", none, [], [], false, true⟩
        (some ⟨"m1", "a"⟩) =
      (⟨"a", none, [], [], false, true⟩, false, [])) ∧
    (onDirective (fun _ _ => true) 1 ⟨"a", none, [], [], false, false⟩
        (some ⟨"m1", "b"⟩) =
      (⟨"a", none, [], [], false, false⟩, true, [])) :=
  ⟨(onDirective_guards (fun _ _ => true) 1 ⟨"a", none, [], [], false, false⟩).1,
   (onDirective_guards (fun _ _ => true) 1 ⟨"a", none, [], [], false, true⟩).2.1
     ⟨"m1", "a"⟩ rfl,
   (onDirective_guards (fun _ _ => true) 1 ⟨"a", none, [], [], false, false⟩).2.2
     ⟨"m1", "b"⟩ rfl (by decide)⟩

/-- C3.  Ingest of a matching directive while not shutting down: the
pre-handling slot is set to the directive before the router call; exactly
one `preHandleDirective` call is made, with a sink carrying the processor's
handle and the directive's message id; ingest returns the router's boolean.
On resumption at an arbitrary reacquired state: when the slot is still
occupied it is cleared and the directive is appended to the handling queue
iff the router accepted; when the slot was emptied during the router call,
nothing is enqueued; in both cases the router's boolean is returned. -/
theorem onDirective_preHandle_spec
    (router : AVSDirective → DirectiveHandlerResult → Bool) (handle : Nat)
    (s : ProcState) (d : AVSDirective)
    (hshut : s.isShuttingDown = false)
    (hdlg : d.dialogRequestId = s.dialogRequestId) :
    (onDirectiveEnter s (some d) =
      Sum.inr { s with directiveBeingPreHandled := some d }) ∧
    ((onDirective router handle s (some d)).2.2 =
      [(d, ⟨handle, d.messageId⟩)]) ∧
    ((onDirective router handle s (some d)).2.1 =
      router d ⟨handle, d.messageId⟩) ∧
    (∀ (s' : ProcState) (handled : Bool),
      (s'.directiveBeingPreHandled.isSome = true →
        onDirectiveResume s' d handled =
          ({ s' with directiveBeingPreHandled := none,
                     handlingQueue :=
                       if handled then s'.handlingQueue ++ [d]
                       else s'.handlingQueue }, handled)) ∧
      (s'.directiveBeingPreHandled = none →
        onDirectiveResume s' d handled = (s', handled))) := by
  refine ⟨?_, ?_, ?_, ?_⟩
  · simp [onDirectiveEnter, hshut, hdlg]
  · rcases h : router d ⟨handle, d.messageId⟩ <;>
      simp [onDirective, hshut, hdlg, onDirectiveResume, h]
  · rcases h : router d ⟨handle, d.messageId⟩ <;>
      simp [onDirective, hshut, hdlg, onDirectiveResume, h]
  · intro s' handled
    constructor
    · intro h
      rcases handled <;> simp [onDirectiveResume, h]
    · intro h
      rcases handled <;> simp [onDirectiveResume, h]

/-- C3 witness: an accepting router at a concrete state, with both resume
branches exercised. -/
theorem onDirective_preHandle_spec_witness :
    (onDirectiveEnter ⟨"a", none, [], [], false, false⟩ (some ⟨"m1", "a"⟩) =
      Sum.inr ⟨"a", some ⟨"m1", "a"⟩, [], [], false, false⟩) ∧
    ((onDirective (fun _ _ => true) 7 ⟨"a", none, [], [], false, false⟩
        (some ⟨"m1", "a"⟩)).2.2 = [(⟨"m1", "a"⟩, ⟨7, "m1"⟩)]) ∧
    (onDirectiveResume ⟨"a", some ⟨"m1", "a"⟩, [], [], false, false⟩
        ⟨"m1", "a"⟩ true =
      (⟨"a", none, [⟨"m1", "a"⟩], [], false, false⟩, true)) ∧
    (onDirectiveResume ⟨"a", none, [], [], false, false⟩ ⟨"m1", "a"⟩ true =
      (⟨"a", none, [], [], false, false⟩, true)) := by
  have h := onDirective_preHandle_spec (fun _ _ => true) 7
    ⟨"a", none, [], [], false, false⟩ ⟨"m1", "a"⟩ rfl rfl
  refine ⟨h.1, h.2.1, ?_, ?_⟩
  · have h2 := (h.2.2.2 ⟨"a", some ⟨"m1", "a"⟩, [], [], false, false⟩ true).1 rfl
    simpa using h2
  · exact (h.2.2.2 ⟨"a", none, [], [], false, false⟩ true).2 rfl

/-- C1.  On return of the worker's dispatch step from the router's handle
call, at the (arbitrary) state found when the mutex is reacquired: when the
call succeeded with a non-Blocking policy, `is_handling_current` is cleared
and the head of the handling queue is popped iff it is still this directive;
when the call failed, the same clearing and conditional pop happen and then
cancel-all runs; when the call succeeded with a Blocking policy, the state
is untouched, so `is_handling_current` stays set and the directive stays at
the head. -/
theorem handleDirectiveResume_spec (s : ProcState) (d : AVSDirective)
    (handled : Bool) (policy : BlockingPolicy) :
    (handled = true → policy ≠ BlockingPolicy.BLOCKING →
      handleDirectiveResume s d handled policy =
        { s with isHandlingDirective := false,
                 handlingQueue :=
                   if s.handlingQueue.head? = some d then s.handlingQueue.tail
                   else s.handlingQueue }) ∧
    (handled = false →
      handleDirectiveResume s d handled policy =
        ⟨"", none, [],
         s.cancelingQueue ++
           (if s.handlingQueue.head? = some d then s.handlingQueue.tail
            else s.handlingQueue) ++
           s.directiveBeingPreHandled.toList,
         false, s.isShuttingDown⟩) ∧
    (handled = true → policy = BlockingPolicy.BLOCKING →
      handleDirectiveResume s d handled policy = s) := by
  refine ⟨?_, ?_, ?_⟩
  · intro hh hp
    subst hh
    unfold handleDirectiveResume
    rw [if_pos (Or.inr (Ne.symm hp))]
    simp only [Bool.not_true, if_neg (by simp : ¬(true = false))]
    rcases hq : s.handlingQueue with _ | ⟨a, t⟩
    · simp
    · by_cases hd : a = d
      · subst hd
        simp [hq]
      · simp [hq, hd]
  · intro hh
    subst hh
    unfold handleDirectiveResume
    rw [if_pos (Or.inl (by simp))]
    simp only [if_pos (by simp : (false = false))]
    rcases hq : s.handlingQueue with _ | ⟨a, t⟩
    · simp [queueAll_fst]
    · by_cases hd : a = d
      · subst hd
        simp [hq, queueAll_fst]
      · simp [hq, hd, queueAll_fst]
  · intro hh hp
    subst hh
    subst hp
    unfold handleDirectiveResume
    simp

/-- C1 witness: the three cases at concrete states. -/
theorem handleDirectiveResume_spec_witness :
    (handleDirectiveResume ⟨"a", none, [⟨"m1", "a"⟩, ⟨"m2", "a"⟩], [], true, false⟩
        ⟨"m1", "a"⟩ true BlockingPolicy.NON_BLOCKING =
      ⟨"a", none, [⟨"m2", "a"⟩], [], false, false⟩) ∧
    (handleDirectiveResume ⟨"a", none, [⟨"m1", "a"⟩, ⟨"m2", "a"⟩], [], true, false⟩
        ⟨"m1", "a"⟩ false BlockingPolicy.NONE =
      ⟨"", none, [], [⟨"m2", "a"⟩], false, false⟩) ∧
    (handleDirectiveResume ⟨"a", none, [⟨"m1", "a"⟩], [], true, false⟩
        ⟨"m1", "a"⟩ true BlockingPolicy.BLOCKING =
      ⟨"a", none, [⟨"m1", "a"⟩], [], true, false⟩) := by
  refine ⟨?_, ?_, ?_⟩
  · have h := (handleDirectiveResume_spec
      ⟨"a", none, [⟨"m1", "a"⟩, ⟨"m2", "a"⟩], [], true, false⟩
      ⟨"m1", "a"⟩ true BlockingPolicy.NON_BLOCKING).1 rfl (by decide)
    simpa using h
  · have h := (handleDirectiveResume_spec
      ⟨"a", none, [⟨"m1", "a"⟩, ⟨"m2", "a"⟩], [], true, false⟩
      ⟨"m1", "a"⟩ false BlockingPolicy.NONE).2.1 rfl
    simpa using h
  · exact (handleDirectiveResume_spec ⟨"a", none, [⟨"m1", "a"⟩], [], true, false⟩
      ⟨"m1", "a"⟩ true BlockingPolicy.BLOCKING).2.2 rfl rfl

/-- C6.  A sink callback whose processor handle is no longer registered in
the handle map leaves the map (and so every processor state) unchanged, for
both `setCompleted` and `setFailed`. -/
theorem sink_noop_when_deregistered (m : HandleMap) (r : DirectiveHandlerResult)
    (h : handleMapFind m r.processorHandle = none) :
    setCompleted m r = m ∧
    (∀ description : String, setFailed m r description = m) := by
  constructor
  · unfold setCompleted
    rw [h]
  · intro description
    unfold setFailed
    rw [h]

/-- C6 witness: an empty handle map. -/
theorem sink_noop_when_deregistered_witness :
    setCompleted [] ⟨5, "m1"⟩ = [] ∧ setFailed [] ⟨5, "m1"⟩ "err" = [] := by
  have h := sink_noop_when_deregistered [] ⟨5, "m1"⟩ rfl
  exact ⟨h.1, h.2 "err"⟩

/-- C5.  `onHandlingCompleted`: when the pre-handling slot holds a
directive with the given message id, the slot is cleared and nothing else
changes; otherwise the first matching directive is removed from the handling
queue if present, clearing `is_handling_current` exactly when the match was
the head while the flag was set; otherwise the first match is removed from
the canceling queue if present; otherwise the state is unchanged.  In every
case the dialog id is untouched and the canceling queue only ever shrinks,
so completion never triggers cancel-all. -/
theorem onHandlingCompleted_spec (s : ProcState) (messageId : String) :
    ((s.directiveBeingPreHandled.map fun d => d.messageId) = some messageId →
      onHandlingCompleted s messageId =
        { s with directiveBeingPreHandled := none }) ∧
    ((s.directiveBeingPreHandled.map fun d => d.messageId) ≠ some messageId →
      (∀ i : Nat, findDirectiveInQueueLocked messageId s.handlingQueue = some i →
        onHandlingCompleted s messageId =
          { s with handlingQueue := s.handlingQueue.eraseIdx i,
                   isHandlingDirective := s.isHandlingDirective && decide (i ≠ 0) }) ∧
      (findDirectiveInQueueLocked messageId s.handlingQueue = none →
        (∀ j : Nat, findDirectiveInQueueLocked messageId s.cancelingQueue = some j →
          onHandlingCompleted s messageId =
            { s with cancelingQueue := s.cancelingQueue.eraseIdx j }) ∧
        (findDirectiveInQueueLocked messageId s.cancelingQueue = none →
          onHandlingCompleted s messageId = s))) ∧
    (onHandlingCompleted s messageId).dialogRequestId = s.dialogRequestId ∧
    List.Sublist (onHandlingCompleted s messageId).cancelingQueue
      s.cancelingQueue := by
  by_cases hs : (s.directiveBeingPreHandled.map fun d => d.messageId) = some messageId
  · have hval : onHandlingCompleted s messageId =
        { s with directiveBeingPreHandled := none } := by
      unfold onHandlingCompleted
      rw [if_pos hs]
    exact ⟨fun _ => hval, fun hns => absurd hs hns,
      by rw [hval], by rw [hval]⟩
  · rcases hf : findDirectiveInQueueLocked messageId s.handlingQueue with _ | i
    · rcases hcq : findDirectiveInQueueLocked messageId s.cancelingQueue with _ | j
      · have hval : onHandlingCompleted s messageId = s := by
          unfold onHandlingCompleted
          rw [if_neg hs]
          simp [removeFromHandlingQueue_none s messageId hf,
            removeFromCancelingQueue_none s messageId hcq]
        refine ⟨fun h => absurd h hs, fun _ => ⟨?_, fun _ => ⟨?_, fun _ => hval⟩⟩,
          by rw [hval], by rw [hval]⟩
        · intro i hi
          cases hi
        · intro j hj
          cases hj
      · have hval : onHandlingCompleted s messageId =
            { s with cancelingQueue := s.cancelingQueue.eraseIdx j } := by
          unfold onHandlingCompleted
          rw [if_neg hs]
          simp [removeFromHandlingQueue_none s messageId hf,
            removeFromCancelingQueue_some s messageId j hcq]
        refine ⟨fun h => absurd h hs, fun _ => ⟨?_, fun _ => ⟨?_, ?_⟩⟩,
          by rw [hval], ?_⟩
        · intro i hi
          cases hi
        · intro j' hj'
          cases hj'
          exact hval
        · intro hj'
          cases hj'
        · rw [hval]
          exact List.eraseIdx_sublist s.cancelingQueue j
    · have hval : onHandlingCompleted s messageId =
          { s with handlingQueue := s.handlingQueue.eraseIdx i,
                   isHandlingDirective := s.isHandlingDirective && decide (i ≠ 0) } := by
        unfold onHandlingCompleted
        rw [if_neg hs]
        simp [removeFromHandlingQueue_some s messageId i hf]
      refine ⟨fun h => absurd h hs, fun _ => ⟨?_, ?_⟩, by rw [hval], by rw [hval]⟩
      · intro i' hi'
        cases hi'
        exact hval
      · intro hi'
        cases hi'

/-- C5 witness: the four cases at concrete states. -/
theorem onHandlingCompleted_spec_witness :
    (onHandlingCompleted ⟨"a", some ⟨"m1", "a"⟩, [], [], false, false⟩ "m1" =
      ⟨"a", none, [], [], false, false⟩) ∧
    (onHandlingCompleted ⟨"a", none, [⟨"m1", "a"⟩, ⟨"m2", "a"⟩], [], true, false⟩ "m1" =
      ⟨"a", none, [⟨"m2", "a"⟩], [], false, false⟩) ∧
    (onHandlingCompleted ⟨"a", none, [], [⟨"m1", "a"⟩], false, false⟩ "m1" =
      ⟨"a", none, [], [], false, false⟩) ∧
    (onHandlingCompleted ⟨"a", none, [], [], false, false⟩ "m1" =
      ⟨"a", none, [], [], false, false⟩) := by
  refine ⟨?_, ?_, ?_, ?_⟩
  · exact (onHandlingCompleted_spec ⟨"a", some ⟨"m1", "a"⟩, [], [], false, false⟩
      "m1").1 (by decide)
  · have h := ((onHandlingCompleted_spec
      ⟨"a", none, [⟨"m1", "a"⟩, ⟨"m2", "a"⟩], [], true, false⟩ "m1").2.1
      (by decide)).1 0 (by decide)
    simpa using h
  · have h := (((onHandlingCompleted_spec
      ⟨"a", none, [], [⟨"m1", "a"⟩], false, false⟩ "m1").2.1
      (by decide)).2 (by decide)).1 0 (by decide)
    simpa using h
  · exact (((onHandlingCompleted_spec ⟨"a", none, [], [], false, false⟩ "m1").2.1
      (by decide)).2 (by decide)).2 (by decide)

/-- C4.  `onHandlingFailed`: when the pre-handling slot holds a directive
with the failed message id, the slot is cleared and then cancel-all runs (so
the slot directive itself is dropped and the handling queue migrates to the
canceling queue); otherwise, when the first match is removed from the
handling queue, cancel-all runs afterwards (migrating the remaining queue
and any slot directive); otherwise, when the first match is removed from the
canceling queue, nothing else happens; otherwise the state is unchanged. -/
theorem onHandlingFailed_spec (s : ProcState) (messageId description : String) :
    ((s.directiveBeingPreHandled.map fun d => d.messageId) = some messageId →
      onHandlingFailed s messageId description =
        ⟨"", none, [], s.cancelingQueue ++ s.handlingQueue, false,
         s.isShuttingDown⟩) ∧
    ((s.directiveBeingPreHandled.map fun d => d.messageId) ≠ some messageId →
      (∀ i : Nat, findDirectiveInQueueLocked messageId s.handlingQueue = some i →
        onHandlingFailed s messageId description =
          ⟨"", none, [],
           s.cancelingQueue ++ s.handlingQueue.eraseIdx i ++
             s.directiveBeingPreHandled.toList,
           false, s.isShuttingDown⟩) ∧
      (findDirectiveInQueueLocked messageId s.handlingQueue = none →
        (∀ j : Nat, findDirectiveInQueueLocked messageId s.cancelingQueue = some j →
          onHandlingFailed s messageId description =
            { s with cancelingQueue := s.cancelingQueue.eraseIdx j }) ∧
        (findDirectiveInQueueLocked messageId s.cancelingQueue = none →
          onHandlingFailed s messageId description = s))) := by
  by_cases hs : (s.directiveBeingPreHandled.map fun d => d.messageId) = some messageId
  · refine ⟨fun _ => ?_, fun hns => absurd hs hns⟩
    unfold onHandlingFailed
    rw [if_pos hs]
    rw [queueAll_fst]
    simp
  · refine ⟨fun h => absurd h hs, fun _ => ⟨?_, ?_⟩⟩
    · intro i hi
      unfold onHandlingFailed
      rw [if_neg hs]
      simp only [removeFromHandlingQueue_some s messageId i hi]
      simp [queueAll_fst]
    · intro hf
      constructor
      · intro j hj
        unfold onHandlingFailed
        rw [if_neg hs]
        simp [removeFromHandlingQueue_none s messageId hf,
          removeFromCancelingQueue_some s messageId j hj]
      · intro hcq
        unfold onHandlingFailed
        rw [if_neg hs]
        simp [removeFromHandlingQueue_none s messageId hf,
          removeFromCancelingQueue_none s messageId hcq]

/-- C4 witness: the four cases at concrete states. -/
theorem onHandlingFailed_spec_witness :
    (onHandlingFailed ⟨"a", some ⟨"m1", "a"⟩, [⟨"m2", "a"⟩], [], false, false⟩
        "m1" "err" =
      ⟨"", none, [], [⟨"m2", "a"⟩], false, false⟩) ∧
    (onHandlingFailed ⟨"a", none, [⟨"m1", "a"⟩, ⟨"m2", "a"⟩], [], true, false⟩
        "m1" "err" =
      ⟨"", none, [], [⟨"m2", "a"⟩], false, false⟩) ∧
    (onHandlingFailed ⟨"a", none, [], [⟨"m1", "a"⟩], false, false⟩ "m1" "err" =
      ⟨"a", none, [], [], false, false⟩) ∧
    (onHandlingFailed ⟨"a", none, [], [], false, false⟩ "m1" "err" =
      ⟨"a", none, [], [], false, false⟩) := by
  refine ⟨?_, ?_, ?_, ?_⟩
  · have h := (onHandlingFailed_spec
      ⟨"a", some ⟨"m1", "a"⟩, [⟨"m2", "a"⟩], [], false, false⟩ "m1" "err").1
      (by decide)
    simpa using h
  · have h := ((onHandlingFailed_spec
      ⟨"a", none, [⟨"m1", "a"⟩, ⟨"m2", "a"⟩], [], true, false⟩ "m1" "err").2
      (by decide)).1 0 (by decide)
    simpa using h
  · have h := (((onHandlingFailed_spec
      ⟨"a", none, [], [⟨"m1", "a"⟩], false, false⟩ "m1" "err").2
      (by decide)).2 (by decide)).1 0 (by decide)
    simpa using h
  · exact (((onHandlingFailed_spec ⟨"a", none, [], [], false, false⟩ "m1"
      "err").2 (by decide)).2 (by decide)).2 (by decide)

/-- Every state mutation other than ingest leaves the pre-handling slot
unchanged or clears it; none assigns a directive into it. -/
theorem applyEnvOp_slot (s : ProcState) (op : EnvOp) :
    (applyEnvOp s op).directiveBeingPreHandled = s.directiveBeingPreHandled ∨
    (applyEnvOp s op).directiveBeingPreHandled = none := by
  rcases op with id | _ | mid | ⟨mid, desc⟩ | _ | _ | ⟨d, handled, policy⟩
  · simp only [applyEnvOp]
    unfold setDialogRequestId
    by_cases h : id = s.dialogRequestId
    · rw [if_pos h]
      exact Or.inl rfl
    · rw [if_neg h]
      right
      simp [queueAll_fst]
  · simp only [applyEnvOp]
    unfold shutdown
    right
    simp [queueAll_fst]
  · simp only [applyEnvOp]
    unfold onHandlingCompleted
    by_cases h : (s.directiveBeingPreHandled.map fun e => e.messageId) = some mid
    · rw [if_pos h]
      exact Or.inr rfl
    · rw [if_neg h]
      left
      rcases hf : findDirectiveInQueueLocked mid s.handlingQueue with _ | i
      · simp only [removeFromHandlingQueue_none s mid hf]
        exact removeFromCancelingQueue_slot s mid
      · simp [removeFromHandlingQueue_some s mid i hf]
  · simp only [applyEnvOp]
    unfold onHandlingFailed
    by_cases h : (s.directiveBeingPreHandled.map fun e => e.messageId) = some mid
    · rw [if_pos h]
      right
      simp [queueAll_fst]
    · rw [if_neg h]
      rcases hf : findDirectiveInQueueLocked mid s.handlingQueue with _ | i
      · simp only [removeFromHandlingQueue_none s mid hf]
        exact Or.inl (removeFromCancelingQueue_slot s mid)
      · right
        simp [removeFromHandlingQueue_some s mid i hf, queueAll_fst]
  · simp only [applyEnvOp]
    unfold processCancelingQueueLocked
    by_cases h : s.cancelingQueue.isEmpty <;> simp [h]
  · simp only [applyEnvOp]
    unfold handleDirectiveEnter
    rcases hq : s.handlingQueue with _ | ⟨a, t⟩
    · simp
    · by_cases hih : s.isHandlingDirective <;> simp [hih]
  · simp only [applyEnvOp]
    rcases handled with _ | _
    · right
      unfold handleDirectiveResume
      split_ifs <;> simp_all [queueAll_fst]
    · left
      unfold handleDirectiveResume
      split_ifs <;> simp_all
      split_ifs <;> rfl

/-- C10.  No operation that can interleave with an ingest's released-lock
window (a second ingest is excluded by the ingest mutex) assigns a directive
into the pre-handling slot: each leaves it unchanged or clears it.  Hence
after any such interleaving, a still-occupied slot necessarily holds the
ingesting directive, so testing the slot for occupancy is equivalent to
testing that it still holds that directive. -/
theorem preHandlingSlot_only_cleared (ops : List EnvOp) (s : ProcState)
    (d : AVSDirective) (h : s.directiveBeingPreHandled = some d) :
    (∀ (t : ProcState) (op : EnvOp),
      (applyEnvOp t op).directiveBeingPreHandled = t.directiveBeingPreHandled ∨
      (applyEnvOp t op).directiveBeingPreHandled = none) ∧
    ((ops.foldl applyEnvOp s).directiveBeingPreHandled.isSome = true →
      (ops.foldl applyEnvOp s).directiveBeingPreHandled = some d) := by
  have key : ∀ (l : List EnvOp) (t : ProcState),
      t.directiveBeingPreHandled = some d ∨ t.directiveBeingPreHandled = none →
      (l.foldl applyEnvOp t).directiveBeingPreHandled = some d ∨
      (l.foldl applyEnvOp t).directiveBeingPreHandled = none := by
    intro l
    induction l with
    | nil => exact fun t ht => ht
    | cons op rest ih =>
      intro t ht
      apply ih
      rcases applyEnvOp_slot t op with h1 | h1
      · rw [h1]
        exact ht
      · exact Or.inr h1
  refine ⟨fun t op => applyEnvOp_slot t op, fun hsome => ?_⟩
  rcases key ops s (Or.inl h) with hk | hk
  · exact hk
  · rw [hk] at hsome
    simp at hsome

/-- C10 witness: a concrete interleaving (a completion callback for an
unrelated message id, then the worker's dispatch entry) on a state with an
occupied slot. -/
theorem preHandlingSlot_only_cleared_witness :
    ([EnvOp.opCompleted "m9", EnvOp.opDispatchEnter].foldl applyEnvOp
        ⟨"a", some ⟨"m1", "a"⟩, [], [], false, false⟩).directiveBeingPreHandled =
      some ⟨"m1", "a"⟩ :=
  (preHandlingSlot_only_cleared [EnvOp.opCompleted "m9", EnvOp.opDispatchEnter]
      ⟨"a", some ⟨"m1", "a"⟩, [], [], false, false⟩ ⟨"m1", "a"⟩ rfl).2
    (by decide)

end DirectiveProcessorModel
